import Mathlib

/-!
Verification development for the MindMap relationship-graph core.

The definitions below are a shallow embedding of `src/A2/graph_worker.py`
(Graph Builder: citation/similarity edge merging into the GOLD_CONNECTIONS
relationship store) and `src/A2/semantic_search_worker.py` (on-demand
cache-first similarity resolver over SILVER_PAPERS).  Store tables are
modelled as Lean lists of rows; the Snowflake MERGE statement is modelled
with its snapshot semantics (source rows are joined against the target
table as of statement start, and every source row with no matching target
row is inserted); statement errors and Python exceptions are modelled with
an explicit error type threaded through the state.  The Snowflake Python
connector runs with autocommit, so statements executed before an exception
stay persisted: functions therefore return the post-crash state together
with the error.
-/

namespace MindMap

/-- A raw citation record from SILVER_PAPERS."citation_list".
`_merge_citations` reads only `citation.get("ss_paper_id")`, so a citation
is modelled by that single optional field. -/
structure Citation where
  ss_paper_id : Option String
  deriving DecidableEq

/-- Python truthiness of `citation.get("ss_paper_id")`: a missing key
(`None`) and the empty string are falsy and make `_merge_citations` skip
the citation; any other string is the resolution key. -/
def Citation.resolvableKey : Citation → Option String
  | ⟨none⟩ => none
  | ⟨some s⟩ => if s = "" then none else some s

/-- A row of MINDMAP_PROD.SILVER.SILVER_PAPERS as read by the graph worker
(columns "id", "ss_id", "title", "citation_list", "similar_embeddings_ids").
The hardcoded test-paper INSERT only sets "ss_id" and "title"; the "id"
default comes from create_schemas.sql, which is not among the sources, and
the graph worker never reads the id of those rows (their NULL
"citation_list" and "similar_embeddings_ids" keep them out of the
full-corpus fetch), so inserted rows are modelled with id 0. -/
structure SilverPaper where
  id : Int
  ss_id : Option String
  title : Option String
  citation_list : Option (List Citation)
  similar_embeddings_ids : Option (List Int)
  deriving DecidableEq

/-- A row of MINDMAP_PROD.GOLD.GOLD_CONNECTIONS. -/
structure GoldRow where
  source_paper_id : Int
  target_paper_id : Int
  relationship_type : String
  strength : ℚ
  deriving DecidableEq

/-- The graph worker's view of the store: the SILVER_PAPERS table and the
GOLD_CONNECTIONS table. -/
structure GraphState where
  silver : List SilverPaper
  gold : List GoldRow
  deriving DecidableEq

/-- Python exceptions raised by the workers, and store-side statement
failures.  `nameError s` models a NameError/UnboundLocalError on the
identifier `s`. -/
inductive PyErr where
  | nameError (missing : String)
  | storeError
  deriving DecidableEq

/-- Whether a gold row with the triple `(s, t, rel)` exists, i.e. the ON
condition of the MERGE statements restricted to the target table. -/
def tripleMem (gold : List GoldRow) (s t : Int) (rel : String) : Bool :=
  gold.any fun g =>
    g.source_paper_id == s && g.target_paper_id == t && g.relationship_type == rel

/-- Snowflake `MERGE ... WHEN NOT MATCHED THEN INSERT` over a set of source
rows: source rows are matched against the target table as of statement
start, and every source row without a match is inserted (duplicate source
rows each insert).  Returns the new table and `cur.rowcount`, the number of
rows inserted. -/
def mergeRows (gold : List GoldRow) (rows : List GoldRow) : List GoldRow × Nat :=
  let fresh := rows.filter fun r =>
    !(tripleMem gold r.source_paper_id r.target_paper_id r.relationship_type)
  (gold ++ fresh, fresh.length)

/-- `_merge_relationship` (graph_worker.py lines 46-64): a single-row MERGE
inserting `(source_id, target_id, rel_type, strength)` when the triple is
absent.  Returns the state and `cur.rowcount`. -/
def _merge_relationship (st : GraphState) (source_id target_id : Int)
    (rel_type : String) (strength : ℚ) : GraphState × Nat :=
  let (gold, n) := mergeRows st.gold [⟨source_id, target_id, rel_type, strength⟩]
  ({ st with gold := gold }, n)

/-- The id resolution subquery of `_merge_citations`: all SILVER rows whose
"ss_id" equals the citation's key, projected to "id". -/
def resolve_ss (silver : List SilverPaper) (ssid : String) : List Int :=
  (silver.filter fun p => p.ss_id == some ssid).map fun p => p.id

/-- One iteration of the `_merge_citations` loop (graph_worker.py lines
68-91): skip the citation when `ss_paper_id` is falsy, otherwise MERGE the
rows `(source_id, sp."id", CITES, 1.0)` for every SILVER row `sp` with a
matching "ss_id" (an unresolvable key yields an empty source and the MERGE
is a no-op). -/
def merge_citation_step (st : GraphState) (source_id : Int) (c : Citation) : GraphState :=
  match c.resolvableKey with
  | some ssid =>
      let rows := (resolve_ss st.silver ssid).map fun t =>
        GoldRow.mk source_id t "CITES" 1
      { st with gold := (mergeRows st.gold rows).1 }
  | none => st

/-- `_merge_citations` (graph_worker.py lines 66-91): loop the step over the
citation list.  This function raises nothing. -/
def _merge_citations (st : GraphState) (source_id : Int)
    (citations : List Citation) : GraphState :=
  citations.foldl (fun s c => merge_citation_step s source_id c) st

/-- The strength computed for the similarity candidate at rank `idx`
(graph_worker.py line 96): `max(0.0, 1.0 - (idx * 0.1))`, modelled over ℚ. -/
def similar_strength (idx : Nat) : ℚ :=
  max 0 (1 - (idx : ℚ) * (1 / 10))

/-- `_merge_similars` (graph_worker.py lines 93-100).  The loop body runs
`_merge_relationship` for the candidate and then executes
`added += cur.rowcount`, but `added` is never initialized in the function:
the first iteration merges the rank-0 edge and then raises
UnboundLocalError on `added`; with an empty candidate list the trailing
`return added` raises the same error before any merge.  The function
therefore never returns normally. -/
def _merge_similars (st : GraphState) (source_id : Int)
    (similar_ids : List Int) : GraphState × Except PyErr Nat :=
  match similar_ids with
  | [] => (st, .error (.nameError "added"))
  | sim_id :: _ =>
      let (st1, _) := _merge_relationship st source_id sim_id "SIMILAR" (similar_strength 0)
      (st1, .error (.nameError "added"))

/-- `_bulk_merge_edges` (graph_worker.py lines 128-154).  An empty edge list
returns 0 at once.  Otherwise the chunk loop iterates `_chunked(edges, 500)`
(lines 120-126), whose body calls `islice` — a name graph_worker.py never
imports (its imports are os, snowflake.connector, typing, config and json) —
so the first chunk request raises NameError before any write reaches the
store. -/
def _bulk_merge_edges (st : GraphState)
    (edges : List (Int × Int × String × ℚ)) : GraphState × Except PyErr Nat :=
  if edges.isEmpty then (st, .ok 0)
  else (st, .error (.nameError "islice"))

/-- Python truthiness of an optional list value: `None` and `[]` are falsy. -/
def truthyList {α : Type} : Option (List α) → Bool
  | none => false
  | some l => !l.isEmpty

/-- Python truthiness of the optional `paper_id` argument: `None` and `0`
are falsy. -/
def truthyInt : Option Int → Bool
  | none => false
  | some n => n != 0

/-- `_fetch_papers` (graph_worker.py lines 27-44): with a truthy `paper_id`
select the rows with that "id"; otherwise select every row whose
"citation_list" or "similar_embeddings_ids" is non-NULL.  Rows are projected
to `("id", "citation_list", "similar_embeddings_ids")`. -/
def _fetch_papers (silver : List SilverPaper) (paper_id : Option Int) :
    List (Int × Option (List Citation) × Option (List Int)) :=
  let rows :=
    if truthyInt paper_id then
      silver.filter fun p => some p.id == paper_id
    else
      silver.filter fun p => p.citation_list.isSome || p.similar_embeddings_ids.isSome
  rows.map fun p => (p.id, p.citation_list, p.similar_embeddings_ids)

/-- The first hardcoded test paper inserted by
`_insert_hardcoded_test_papers`: only "ss_id" and "title" are set. -/
def dummy_paper_1 : SilverPaper :=
  ⟨0, some "8d0835be89802021924c328d9fd3b10fa557c4a7", some "Dummy Paper 1", none, none⟩

/-- The second hardcoded test paper inserted by
`_insert_hardcoded_test_papers`. -/
def dummy_paper_2 : SilverPaper :=
  ⟨0, some "462142049c247e69eaf9d903aae2301f81885645", some "Dummy Paper 2", none, none⟩

/-- `_insert_hardcoded_test_papers` (graph_worker.py lines 159-178): insert
each of the two dummy papers into SILVER unless a row with its "ss_id"
already exists. -/
def _insert_hardcoded_test_papers (st : GraphState) : GraphState :=
  [dummy_paper_1, dummy_paper_2].foldl
    (fun s d =>
      if s.silver.any fun p => p.ss_id == d.ss_id then s
      else { s with silver := s.silver ++ [d] })
    st

/-- The body of the per-paper loop in `build_knowledge_graph`
(graph_worker.py lines 196-207): merge the citations when the citation list
is truthy, then merge the similars when the candidate list is truthy.
SILVER's VARIANT values are modelled as structured data, so the
`json.loads` branch for string-encoded citation lists is the identity.
A raised `_merge_similars` error aborts the loop. -/
def process_paper (st : GraphState)
    (row : Int × Option (List Citation) × Option (List Int)) :
    GraphState × Option PyErr :=
  let (pid, citations, similar_ids) := row
  let st1 := if truthyList citations then _merge_citations st pid (citations.getD []) else st
  if truthyList similar_ids then
    match _merge_similars st1 pid (similar_ids.getD []) with
    | (st2, .ok _) => (st2, none)
    | (st2, .error e) => (st2, some e)
  else (st1, none)

/-- The per-paper loop of `build_knowledge_graph`: processes papers in
order, stopping at the first raised exception. -/
def process_papers (st : GraphState) :
    List (Int × Option (List Citation) × Option (List Int)) →
      GraphState × Option PyErr
  | [] => (st, none)
  | row :: rest =>
      match process_paper st row with
      | (st1, none) => process_papers st1 rest
      | (st1, some e) => (st1, some e)

/-- `build_knowledge_graph` (graph_worker.py lines 181-212): insert the
hardcoded test papers, fetch the papers, loop over them, and finally
`print(f"... edges added: {added}")` — but `added` is never assigned in the
function, so a run that survives the loop still raises NameError at the
final report.  Statements already executed stay committed (connector
autocommit), so the post-crash state is returned with the error. -/
def build_knowledge_graph (st : GraphState) (paper_id : Option Int) :
    GraphState × Except PyErr Unit :=
  let st1 := _insert_hardcoded_test_papers st
  let papers := _fetch_papers st1.silver paper_id
  match process_papers st1 papers with
  | (st2, some e) => (st2, .error e)
  | (st2, none) => (st2, .error (.nameError "added"))

/-- A row of MINDMAP_DB.PUBLIC.SILVER_PAPERS as read by the semantic search
worker (columns id, arxiv_id, title, embedding, similar_embddings_ids —
the cache column name carries the source's spelling).  Embedding vectors
are modelled over ℚ. -/
structure SPaper where
  id : Int
  arxiv_id : Option String
  title : Option String
  embedding : Option (List ℚ)
  similar_embddings_ids : Option (List Int)
  deriving DecidableEq

/-- The search worker's view of the store, plus a fault flag: when
`cacheWriteFails` is set, the UPDATE statement writing the cache column
raises `storeError` (modelling a store-side failure of that statement). -/
structure SearchState where
  papers : List SPaper
  cacheWriteFails : Bool
  deriving DecidableEq

/-- A dict returned by `get_related_papers`: cache hits carry
`source = "cache"` and no score, fallback results carry
`source = "fallback"` and their similarity score. -/
structure RelatedPaper where
  id : Int
  arxiv_id : Option String
  title : Option String
  score : Option ℚ
  source : String
  deriving DecidableEq

/-- The hydration lookup of the cache path: the JOIN's result rows are
loaded into the dict `id_to_row = {int(r[0]): r for r in rows}`, where a
later row with the same id overwrites an earlier one — hence the last
matching table row. -/
def lookupLast (papers : List SPaper) (cid : Int) : Option SPaper :=
  (papers.filter fun p => p.id == cid).getLast?

/-- The cache path's ordered hydration (semantic_search_worker.py lines
39-59): walk the truncated cached ids in order, keep those that still
resolve to a paper, and build the result dict from the resolved row. -/
def hydrate (papers : List SPaper) (cached_ids : List Int) : List RelatedPaper :=
  cached_ids.filterMap fun cid =>
    (lookupLast papers cid).map fun p =>
      RelatedPaper.mk cid p.arxiv_id p.title none "cache"

/-- Dot product over ℚ, truncating at the shorter vector.
VECTOR_COSINE_SIMILARITY is modelled as the dot product: the embedding
provider contract (spec section 6) delivers L2-normalized vectors, for
which cosine similarity and dot product coincide; no claim below depends
on the numeric value of a score. -/
def dotProduct : List ℚ → List ℚ → ℚ
  | a :: as, b :: bs => a * b + dotProduct as bs
  | _, _ => 0

/-- The fallback query's `q` CTE: embeddings of rows with the queried id
and a non-NULL embedding; the query paper's vector is the first such (ids
are unique in practice). -/
def query_embedding (papers : List SPaper) (paper_id : Int) : Option (List ℚ) :=
  ((papers.filter fun p => p.id == paper_id).filterMap fun p => p.embedding).head?

/-- Insert a scored row into a descending-sorted list, before the first row
with a smaller-or-equal score (a stable descending order; SQL leaves tie
order unspecified, so any deterministic choice is a faithful model). -/
def insertByScore (x : SPaper × ℚ) : List (SPaper × ℚ) → List (SPaper × ℚ)
  | [] => [x]
  | y :: ys => if y.2 ≤ x.2 then x :: y :: ys else y :: insertByScore x ys

/-- `ORDER BY score DESC` as a stable insertion sort. -/
def sortByScoreDesc (l : List (SPaper × ℚ)) : List (SPaper × ℚ) :=
  l.foldr insertByScore []

/-- The rows produced by the fallback similarity query
(semantic_search_worker.py lines 62-83): when the query paper has a vector,
score every other row that has an embedding, order by descending score and
keep the top k; when it has none the cross join with the empty `q` yields
no rows. -/
def fallback_rows (st : SearchState) (paper_id : Int) (k : Nat) :
    List (SPaper × ℚ) :=
  match query_embedding st.papers paper_id with
  | none => []
  | some qvec =>
      let candidates := st.papers.filter fun e => e.id != paper_id && e.embedding.isSome
      let scored := candidates.map fun e => (e, dotProduct (e.embedding.getD []) qvec)
      (sortByScoreDesc scored).take k

/-- The fallback result dicts (semantic_search_worker.py line 84). -/
def fallback_results (st : SearchState) (paper_id : Int) (k : Nat) :
    List RelatedPaper :=
  (fallback_rows st paper_id k).map fun er =>
    RelatedPaper.mk er.1.id er.1.arxiv_id er.1.title (some er.2) "fallback"

/-- The cache write-back UPDATE (semantic_search_worker.py lines 89-96):
set similar_embddings_ids for every row with the queried id. -/
def write_cache (st : SearchState) (paper_id : Int) (ids_only : List Int) :
    SearchState :=
  { st with
    papers := st.papers.map fun p =>
      if p.id == paper_id then { p with similar_embddings_ids := some ids_only } else p }

/-- The fallback branch of `get_related_papers` (semantic_search_worker.py
lines 61-99): compute the results; when non-empty, execute the cache
write-back UPDATE — the UPDATE is not wrapped in any try/except, so a
failing write raises out of the function — and return the results. -/
def fallback (st : SearchState) (paper_id : Int) (k : Nat) :
    SearchState × Except PyErr (List RelatedPaper) :=
  let results := fallback_results st paper_id k
  if results.isEmpty then (st, .ok results)
  else if st.cacheWriteFails then (st, .error .storeError)
  else (write_cache st paper_id (results.map fun r => r.id), .ok results)

/-- `get_related_papers` (semantic_search_worker.py lines 14-102): fetch the
queried row; when it exists and its cache column is non-NULL, truncate the
cached ids to k and, when the truncation is non-empty, return its ordered
hydration; in every other case run the fallback branch. -/
def get_related_papers (st : SearchState) (paper_id : Int) (k : Nat) :
    SearchState × Except PyErr (List RelatedPaper) :=
  match st.papers.find? fun p => p.id == paper_id with
  | some row =>
      match row.similar_embddings_ids with
      | some ids =>
          let cached_ids := ids.take k
          if cached_ids.isEmpty then fallback st paper_id k
          else (st, .ok (hydrate st.papers cached_ids))
      | none => fallback st paper_id k
  | none => fallback st paper_id k

/-- Replace every paper's embedding according to `f`, leaving every other
column unchanged; used to state that cache hits are independent of the
current embeddings (hence of any similarity score). -/
def mapEmbedding (f : SPaper → Option (List ℚ)) (st : SearchState) : SearchState :=
  { st with papers := st.papers.map fun p => { p with embedding := f p } }

/-! Concrete states used by the closed theorems below. -/

/-- A one-paper corpus: paper 1 lists paper 2 as its sole similarity
candidate; the relationship store starts empty. -/
def corpusOnePaper : GraphState :=
  ⟨[⟨1, some "a", some "P1", none, some [2]⟩], []⟩

/-- C1: the claim's Graph Builder idempotency presupposes that a run
completes; on this (rerunnable) one-paper corpus the run instead raises
NameError on the never-assigned `added` after merging only the rank-0
similarity edge, so no run ever completes and there is no well-defined
second run. -/
theorem build_knowledge_graph_raises_before_completing :
    build_knowledge_graph corpusOnePaper none
      = (⟨[⟨1, some "a", some "P1", none, some [2]⟩, dummy_paper_1, dummy_paper_2],
          [⟨1, 2, "SIMILAR", similar_strength 0⟩]⟩,
         .error (.nameError "added")) := by
  rfl

/-- C3: `_merge_similars` computes `max(0.0, 1.0 - 0.1*i)` per rank, but the
`added += cur.rowcount` on the never-initialized `added` raises right after
the first merge: for candidates `[2, 3]` only the rank-0 edge (strength 1)
reaches the store and no strength-0.9 edge is ever emitted for rank 1 —
even though the formula itself gives `similar_strength 1 = 9/10`. -/
theorem merge_similars_emits_only_rank_zero_edge :
    _merge_similars ⟨[], []⟩ 1 [2, 3]
        = (⟨[], [⟨1, 2, "SIMILAR", similar_strength 0⟩]⟩, .error (.nameError "added"))
      ∧ similar_strength 0 = 1 ∧ similar_strength 1 = 9 / 10 := by
  refine ⟨by rfl, by simp [similar_strength, max_def], by rw [similar_strength]; norm_num⟩

/-- C5: on an empty corpus the full-corpus run fetches zero papers and
merges zero edges, but then raises NameError at the final count report
instead of completing normally; the aggregated-edges list and
`_bulk_merge_edges` are never involved. -/
theorem build_empty_corpus_raises_name_error :
    build_knowledge_graph ⟨[], []⟩ none
      = (⟨[dummy_paper_1, dummy_paper_2], []⟩, .error (.nameError "added")) := by
  rfl

/-- 1200 candidate edges, pairwise distinct triples, no self-loops. -/
def edges1200 : List (Int × Int × String × ℚ) :=
  (List.range 1200).map fun (i : Nat) => ((i : Int), (i : Int) + 10000, "CITES", 1)

set_option maxRecDepth 8000 in
/-- C8: submitting 1,200 candidate edges to `_bulk_merge_edges` performs no
batched write at all: graph_worker.py never imports `islice`, so the chunk
generator raises NameError before the first 500-edge chunk is produced. -/
theorem bulk_merge_nonempty_raises_islice_name_error :
    _bulk_merge_edges ⟨[], []⟩ edges1200 = (⟨[], []⟩, .error (.nameError "islice"))
      ∧ edges1200.length = 1200 := by
  exact ⟨rfl, by rw [edges1200, List.length_map, List.length_range]⟩

/-- C4 counterexample: a paper listing itself as its own similarity
candidate does produce a persisted self-loop — `_merge_similars` merges the
rank-0 edge `(1, 1, SIMILAR, 1.0)` into the store before raising, and no
layer filters `source_id == target_id`. -/
theorem self_loop_similar_edge_reaches_store :
    (_merge_similars ⟨[], []⟩ 1 [1]).1.gold = [⟨1, 1, "SIMILAR", similar_strength 0⟩]
      ∧ similar_strength 0 = 1 := by
  exact ⟨rfl, by simp [similar_strength, max_def]⟩

/-- A search store where paper 1 has no cache entry, paper 2 is its only
similarity candidate, and the cache write-back UPDATE fails. -/
def stWriteFail : SearchState :=
  ⟨[⟨1, none, none, some [1], none⟩, ⟨2, none, none, some [1], none⟩], true⟩

/-- C6 counterexample: on `stWriteFail` the fallback computation produces a
non-empty result (paper 2), yet `get_related_papers` raises the cache
write-back failure instead of returning that result — the write is not
best-effort in the code, which has no try/except around the UPDATE. -/
theorem cache_writeback_failure_fails_resolve :
    get_related_papers stWriteFail 1 10 = (stWriteFail, .error .storeError)
      ∧ (fallback_results stWriteFail 1 10).length = 1 := by
  exact ⟨rfl, rfl⟩

/-- A search store whose only paper has neither an embedding nor a cache
entry. -/
def stNoEmbedding : SearchState := ⟨[⟨1, none, none, none, none⟩], false⟩

/-- A search store whose only paper has an embedding but no cache entry and
no other paper to match: its fallback succeeds with an ordinary empty
result. -/
def stEmptyMatch : SearchState := ⟨[⟨1, none, none, some [1], none⟩], false⟩

/-- C7 counterexample: the no-embedding outcome is not reported as a
distinct condition — `get_related_papers` returns the plain empty list,
the very same value an embedding-present query with zero matches returns,
so the caller cannot tell the two apart. -/
theorem no_embedding_result_indistinguishable :
    get_related_papers stNoEmbedding 1 10 = (stNoEmbedding, .ok [])
      ∧ get_related_papers stEmptyMatch 1 10 = (stEmptyMatch, .ok [])
      ∧ (get_related_papers stNoEmbedding 1 10).2
          = (get_related_papers stEmptyMatch 1 10).2 := by
  exact ⟨rfl, rfl, rfl⟩

/-- C10 counterexample: a Graph Builder run does create Paper records —
starting from a SILVER table holding a single unrelated paper, the run
leaves SILVER with three rows (it inserts the two hardcoded test papers),
so the set of Paper records is not the same before and after. -/
theorem build_inserts_test_papers_into_silver :
    (build_knowledge_graph ⟨[⟨5, some "x", none, none, none⟩], []⟩ none).1.silver
      ≠ [⟨5, some "x", none, none, none⟩] := by
  decide

/-! Helper lemmas about the MERGE model. -/

theorem tripleMem_append {g1 g2 : List GoldRow} {s t : Int} {rel : String} :
    tripleMem (g1 ++ g2) s t rel = (tripleMem g1 s t rel || tripleMem g2 s t rel) := by
  simp [tripleMem, List.any_append]

theorem tripleMem_of_mem {gold : List GoldRow} {r : GoldRow} (hr : r ∈ gold) :
    tripleMem gold r.source_paper_id r.target_paper_id r.relationship_type = true := by
  simp only [tripleMem, List.any_eq_true]
  exact ⟨r, hr, by simp⟩

theorem tripleMem_mergeRows_of_mem {gold rows : List GoldRow} {r : GoldRow}
    (hr : r ∈ rows) :
    tripleMem (mergeRows gold rows).1 r.source_paper_id r.target_paper_id
      r.relationship_type = true := by
  by_cases h : tripleMem gold r.source_paper_id r.target_paper_id r.relationship_type = true
  · simp [mergeRows, tripleMem_append, h]
  · have hfresh : r ∈ (mergeRows gold rows).1 := by
      simp only [mergeRows, List.mem_append, List.mem_filter]
      exact Or.inr ⟨hr, by simp [h]⟩
    exact tripleMem_of_mem hfresh

/-- C4 (amended): self-loop edges are not filtered anywhere — a paper
listing itself as its first similarity candidate gets a SIMILAR self-loop
triple merged into the store by `_merge_similars` (before the function
raises on `added`), and `_merge_relationship` likewise merges any self-loop
it is handed, for every relationship type and strength. -/
theorem self_loops_never_filtered (st : GraphState) (s : Int) (rest : List Int)
    (rel : String) (strength : ℚ) :
    tripleMem (_merge_similars st s (s :: rest)).1.gold s s "SIMILAR" = true
      ∧ tripleMem (_merge_relationship st s s rel strength).1.gold s s rel = true := by
  constructor
  · exact @tripleMem_mergeRows_of_mem st.gold [⟨s, s, "SIMILAR", similar_strength 0⟩]
      ⟨s, s, "SIMILAR", similar_strength 0⟩ (List.mem_singleton.mpr rfl)
  · exact @tripleMem_mergeRows_of_mem st.gold [⟨s, s, rel, strength⟩]
      ⟨s, s, rel, strength⟩ (List.mem_singleton.mpr rfl)

/-! Lemmas about `_merge_citations`. -/

theorem merge_citation_step_silver (st : GraphState) (src : Int) (c : Citation) :
    (merge_citation_step st src c).silver = st.silver := by
  cases hk : c.resolvableKey <;> simp [merge_citation_step, hk]

theorem merge_citations_nil (st : GraphState) (src : Int) :
    _merge_citations st src [] = st :=
  rfl

theorem merge_citations_cons (st : GraphState) (src : Int) (c : Citation)
    (cs : List Citation) :
    _merge_citations st src (c :: cs) = _merge_citations (merge_citation_step st src c) src cs :=
  rfl

theorem merge_citations_append (st : GraphState) (src : Int) (u v : List Citation) :
    _merge_citations st src (u ++ v) = _merge_citations (_merge_citations st src u) src v := by
  simp [_merge_citations, List.foldl_append]

theorem merge_citations_silver (src : Int) (cs : List Citation) :
    ∀ st : GraphState, (_merge_citations st src cs).silver = st.silver := by
  induction cs with
  | nil => intro st; rfl
  | cons c cs ih =>
      intro st
      rw [merge_citations_cons, ih, merge_citation_step_silver]

theorem merge_citation_step_gold_mono {st : GraphState} {src : Int} {c : Citation}
    {s t : Int} {rel : String} (h : tripleMem st.gold s t rel = true) :
    tripleMem (merge_citation_step st src c).gold s t rel = true := by
  cases hk : c.resolvableKey with
  | none => simpa [merge_citation_step, hk] using h
  | some ssid => simp [merge_citation_step, hk, mergeRows, tripleMem_append, h]

theorem merge_citations_gold_mono {src : Int} {cs : List Citation} :
    ∀ {st : GraphState} {s t : Int} {rel : String},
      tripleMem st.gold s t rel = true →
        tripleMem (_merge_citations st src cs).gold s t rel = true := by
  induction cs with
  | nil => intro st s t rel h; exact h
  | cons c cs ih =>
      intro st s t rel h
      rw [merge_citations_cons]
      exact ih (merge_citation_step_gold_mono h)

theorem merge_citation_step_resolvable {st : GraphState} {src : Int} {c : Citation}
    {ssid : String} (hk : c.resolvableKey = some ssid) {p : SilverPaper}
    (hp : p ∈ st.silver) (hss : p.ss_id = some ssid) :
    tripleMem (merge_citation_step st src c).gold src p.id "CITES" = true := by
  have hrow : GoldRow.mk src p.id "CITES" 1
      ∈ (resolve_ss st.silver ssid).map fun t => GoldRow.mk src t "CITES" 1 := by
    refine List.mem_map.mpr ⟨p.id, ?_, rfl⟩
    exact List.mem_map.mpr ⟨p, List.mem_filter.mpr ⟨hp, by simp [hss]⟩, rfl⟩
  have h := @tripleMem_mergeRows_of_mem st.gold
    ((resolve_ss st.silver ssid).map fun t => GoldRow.mk src t "CITES" 1)
    (GoldRow.mk src p.id "CITES" 1) hrow
  simpa [merge_citation_step, hk] using h

theorem merge_citation_step_unresolvable {st : GraphState} {src : Int} {c : Citation}
    (hbad : ∀ s, c.resolvableKey = some s → ∀ q ∈ st.silver, q.ss_id ≠ some s) :
    merge_citation_step st src c = st := by
  cases hk : c.resolvableKey with
  | none => simp [merge_citation_step, hk]
  | some ssid =>
      have hres : resolve_ss st.silver ssid = [] := by
        simp only [resolve_ss, List.map_eq_nil_iff, List.filter_eq_nil_iff]
        intro q hq
        simpa using hbad ssid hk q hq
      simp [merge_citation_step, hk, hres, mergeRows]

theorem merge_citation_step_gold_sub {st : GraphState} {src : Int} {c : Citation} :
    ∀ g ∈ (merge_citation_step st src c).gold,
      g ∈ st.gold ∨ (g.source_paper_id = src ∧ g.relationship_type = "CITES" ∧ g.strength = 1) := by
  intro g hg
  cases hk : c.resolvableKey with
  | none => rw [merge_citation_step, hk] at hg; exact Or.inl hg
  | some ssid =>
      rw [merge_citation_step, hk] at hg
      simp only [mergeRows, List.mem_append, List.mem_filter] at hg
      rcases hg with hg | ⟨hg, _⟩
      · exact Or.inl hg
      · rcases List.mem_map.mp hg with ⟨t, _, rfl⟩
        exact Or.inr ⟨rfl, rfl, rfl⟩

theorem merge_citations_gold_sub {src : Int} {cs : List Citation} :
    ∀ {st : GraphState}, ∀ g ∈ (_merge_citations st src cs).gold,
      g ∈ st.gold ∨ (g.source_paper_id = src ∧ g.relationship_type = "CITES" ∧ g.strength = 1) := by
  induction cs with
  | nil => intro st g hg; exact Or.inl hg
  | cons c cs ih =>
      intro st g hg
      rw [merge_citations_cons] at hg
      rcases ih g hg with hg1 | hshape
      · exact merge_citation_step_gold_sub g hg1
      · exact Or.inr hshape

theorem merge_citations_skip {silver0 : List SilverPaper} {src : Int} {bad : Citation}
    {l2 : List Citation}
    (hbad : ∀ s, bad.resolvableKey = some s → ∀ q ∈ silver0, q.ss_id ≠ some s) :
    ∀ (l1 : List Citation) (st : GraphState), st.silver = silver0 →
      _merge_citations st src (l1 ++ bad :: l2) = _merge_citations st src (l1 ++ l2) := by
  intro l1
  induction l1 with
  | nil =>
      intro st hsil
      have hstep : merge_citation_step st src bad = st :=
        merge_citation_step_unresolvable (by rw [hsil]; exact hbad)
      simp [merge_citations_cons, hstep]
  | cons c l1 ih =>
      intro st hsil
      rw [List.cons_append, List.cons_append, merge_citations_cons, merge_citations_cons]
      exact ih (merge_citation_step st src c) (by rw [merge_citation_step_silver, hsil])

/-- C9: every raw citation whose key resolves to a SILVER paper gets a
CITES triple merged for it (inserted with strength 1.0 when the triple was
absent), and an unresolvable citation is silently skipped: processing a
paper with the unresolvable citation spliced into its citation list yields
exactly the same state and outcome — citation edges and similarity
processing included — as processing it without. -/
theorem citations_resolvable_emitted_unresolvable_isolated
    (st : GraphState) (source_id : Int) (citations : List Citation)
    (c : Citation) (hc : c ∈ citations) (ssid : String)
    (hkey : c.resolvableKey = some ssid)
    (p : SilverPaper) (hp : p ∈ st.silver) (hss : p.ss_id = some ssid)
    (bad : Citation)
    (hbad : ∀ s, bad.resolvableKey = some s → ∀ q ∈ st.silver, q.ss_id ≠ some s)
    (l1 l2 : List Citation) (sims : Option (List Int)) :
    tripleMem (_merge_citations st source_id citations).gold source_id p.id "CITES" = true
      ∧ (tripleMem st.gold source_id p.id "CITES" = false →
          GoldRow.mk source_id p.id "CITES" 1 ∈ (_merge_citations st source_id citations).gold)
      ∧ process_paper st (source_id, some (l1 ++ bad :: l2), sims)
          = process_paper st (source_id, some (l1 ++ l2), sims) := by
  have h1 : tripleMem (_merge_citations st source_id citations).gold source_id p.id
      "CITES" = true := by
    obtain ⟨u, v, rfl⟩ := List.append_of_mem hc
    rw [merge_citations_append, merge_citations_cons]
    apply merge_citations_gold_mono
    exact merge_citation_step_resolvable hkey
      (by rw [merge_citations_silver]; exact hp) hss
  refine ⟨h1, ?_, ?_⟩
  · intro habs
    have h1' := h1
    simp only [tripleMem, List.any_eq_true] at h1'
    obtain ⟨g, hg, hbeq⟩ := h1'
    simp only [Bool.and_eq_true, beq_iff_eq] at hbeq
    obtain ⟨⟨hgs, hgt⟩, hgr⟩ := hbeq
    rcases merge_citations_gold_sub g hg with hmem | ⟨hs2, hr2, hstr⟩
    · exfalso
      have hm := tripleMem_of_mem hmem
      rw [hgs, hgt, hgr, habs] at hm
      exact Bool.false_ne_true hm
    · obtain ⟨gs, gt, gr, gstr⟩ := g
      simp only at hgs hgt hgr hstr
      subst hgs hgt hgr hstr
      exact hg
  · have hskip := @merge_citations_skip st.silver source_id bad l2 hbad l1 st rfl
    have hAne : (l1 ++ bad :: l2).isEmpty = false := by cases l1 <;> rfl
    by_cases hB : (l1 ++ l2).isEmpty = true
    · have hnil : l1 ++ l2 = [] := by simpa using hB
      rw [hnil] at hskip
      simp [process_paper, truthyList, hAne, hnil, hskip, merge_citations_nil]
    · have hB' : (l1 ++ l2).isEmpty = false := by simpa using hB
      simp [process_paper, truthyList, hAne, hB', hskip]

/-- A two-paper SILVER table for the C9 witness. -/
def silverW : List SilverPaper :=
  [⟨1, some "s1", none, none, none⟩, ⟨2, some "s2", none, none, none⟩]

/-- A citation resolving to SILVER paper 2. -/
def citeW : Citation := ⟨some "s2"⟩

/-- A citation whose key matches no SILVER row. -/
def badW : Citation := ⟨some "zz"⟩

/-- Witness for the C9 theorem at a concrete two-paper store. -/
theorem citations_resolvable_emitted_unresolvable_isolated_witness :
    tripleMem (_merge_citations ⟨silverW, []⟩ 1 [citeW]).gold 1 2 "CITES" = true
      ∧ (tripleMem (⟨silverW, []⟩ : GraphState).gold 1 2 "CITES" = false →
          GoldRow.mk 1 2 "CITES" 1 ∈ (_merge_citations ⟨silverW, []⟩ 1 [citeW]).gold)
      ∧ process_paper ⟨silverW, []⟩ (1, some ([] ++ badW :: [citeW]), none)
          = process_paper ⟨silverW, []⟩ (1, some ([] ++ [citeW]), none) := by
  refine citations_resolvable_emitted_unresolvable_isolated
    ⟨silverW, []⟩ 1 [citeW] citeW (List.mem_singleton.mpr rfl) "s2" rfl
    ⟨2, some "s2", none, none, none⟩ (by simp [silverW]) rfl
    badW ?_ [] [citeW] none
  intro s hs q hq
  simp only [badW, Citation.resolvableKey] at hs
  rw [if_neg (by decide)] at hs
  obtain rfl : "zz" = s := Option.some_injective _ hs
  revert hq
  simp [silverW]
  rintro (rfl | rfl) <;> simp

/-! Lemmas showing the per-paper processing never touches SILVER. -/

theorem merge_similars_silver (st : GraphState) (src : Int) (sims : List Int) :
    (_merge_similars st src sims).1.silver = st.silver := by
  cases sims <;> rfl

theorem process_paper_silver (st : GraphState)
    (row : Int × Option (List Citation) × Option (List Int)) :
    (process_paper st row).1.silver = st.silver := by
  obtain ⟨pid, cits, sims⟩ := row
  simp only [process_paper]
  by_cases hc : truthyList cits = true
  · by_cases hs : truthyList sims = true
    · simp only [hc, hs, if_true]
      rcases hms : _merge_similars (_merge_citations st pid (cits.getD [])) pid
          (sims.getD []) with ⟨st2, r⟩
      have h2 : st2.silver = st.silver := by
        have hm := merge_similars_silver (_merge_citations st pid (cits.getD [])) pid
          (sims.getD [])
        rw [hms] at hm
        rw [hm, merge_citations_silver]
      cases r <;> simp [hms, h2]
    · simp [hc, hs, merge_citations_silver]
  · by_cases hs : truthyList sims = true
    · simp only [hc, hs, if_true, if_false]
      rcases hms : _merge_similars st pid (sims.getD []) with ⟨st2, r⟩
      have h2 : st2.silver = st.silver := by
        have hm := merge_similars_silver st pid (sims.getD [])
        rw [hms] at hm
        exact hm
      cases r <;> simp [hms, h2]
    · simp [hc, hs]

theorem process_papers_silver
    (rows : List (Int × Option (List Citation) × Option (List Int))) :
    ∀ st : GraphState, (process_papers st rows).1.silver = st.silver := by
  induction rows with
  | nil => intro st; rfl
  | cons row rest ih =>
      intro st
      simp only [process_papers]
      rcases hp : process_paper st row with ⟨st1, e⟩
      have h1 : st1.silver = st.silver := by
        have h := process_paper_silver st row
        rw [hp] at h
        exact h
      cases e <;> simp [ih st1, h1]

theorem insert_hardcoded_silver_sub (st : GraphState) :
    (∀ p ∈ st.silver, p ∈ (_insert_hardcoded_test_papers st).silver)
      ∧ ∀ p ∈ (_insert_hardcoded_test_papers st).silver,
          p ∈ st.silver ∨ p = dummy_paper_1 ∨ p = dummy_paper_2 := by
  unfold _insert_hardcoded_test_papers
  simp only [List.foldl_cons, List.foldl_nil]
  split
  · split
    · exact ⟨fun p hp => hp, fun p hp => Or.inl hp⟩
    · constructor
      · intro p hp; simp [hp]
      · intro p hp
        rcases List.mem_append.mp hp with h | h
        · exact Or.inl h
        · simp at h; simp [h]
  · split
    · constructor
      · intro p hp; simp [hp]
      · intro p hp
        rcases List.mem_append.mp hp with h | h
        · exact Or.inl h
        · simp at h; simp [h]
    · constructor
      · intro p hp; simp [hp]
      · intro p hp
        rcases List.mem_append.mp hp with h | h
        · rcases List.mem_append.mp h with h2 | h2
          · exact Or.inl h2
          · simp at h2; simp [h2]
        · simp at h; simp [h]

theorem build_silver_eq (st : GraphState) (paper_id : Option Int) :
    (build_knowledge_graph st paper_id).1.silver
      = (_insert_hardcoded_test_papers st).silver := by
  simp only [build_knowledge_graph]
  rcases hp : process_papers (_insert_hardcoded_test_papers st)
      (_fetch_papers (_insert_hardcoded_test_papers st).silver paper_id) with ⟨st2, e⟩
  have h := process_papers_silver
    (_fetch_papers (_insert_hardcoded_test_papers st).silver paper_id)
    (_insert_hardcoded_test_papers st)
  rw [hp] at h
  cases e <;> simpa using h

/-- C10 (amended): `build_knowledge_graph` first inserts up to two
hardcoded test Paper rows into SILVER (`dummy_paper_1`/`dummy_paper_2`, by
"ss_id", only when absent); apart from that insertion it never creates or
modifies Paper records — after a run, SILVER is exactly what the test-row
insertion left, every pre-existing paper row (with its citation list,
similarity candidates and every other field) is still present, and any row
not present before is one of the two test rows; only the relationship
store is otherwise written. -/
theorem build_silver_changes_limited_to_test_rows (st : GraphState)
    (paper_id : Option Int) :
    (build_knowledge_graph st paper_id).1.silver
        = (_insert_hardcoded_test_papers st).silver
      ∧ (∀ p ∈ st.silver, p ∈ (build_knowledge_graph st paper_id).1.silver)
      ∧ (∀ p ∈ (build_knowledge_graph st paper_id).1.silver,
          p ∈ st.silver ∨ p = dummy_paper_1 ∨ p = dummy_paper_2) := by
  have heq := build_silver_eq st paper_id
  have hsub := insert_hardcoded_silver_sub st
  exact ⟨heq, fun p hp => heq ▸ hsub.1 p hp, fun p hp => hsub.2 p (heq ▸ hp)⟩

/-- Witness for the C10 amended theorem on an initially empty store. -/
theorem build_silver_changes_limited_to_test_rows_witness :
    (build_knowledge_graph ⟨[], []⟩ none).1.silver
        = (_insert_hardcoded_test_papers ⟨[], []⟩).silver
      ∧ (∀ p ∈ (⟨[], []⟩ : GraphState).silver,
          p ∈ (build_knowledge_graph ⟨[], []⟩ none).1.silver)
      ∧ (∀ p ∈ (build_knowledge_graph ⟨[], []⟩ none).1.silver,
          p ∈ (⟨[], []⟩ : GraphState).silver ∨ p = dummy_paper_1 ∨ p = dummy_paper_2) :=
  build_silver_changes_limited_to_test_rows ⟨[], []⟩ none

/-! Lemmas about the fallback path of the resolver. -/

theorem query_embedding_none {papers : List SPaper} {pid : Int}
    (h : ∀ q ∈ papers, q.id = pid → q.embedding = none) :
    query_embedding papers pid = none := by
  unfold query_embedding
  have hnil : (papers.filter fun p => p.id == pid).filterMap (fun p => p.embedding) = [] := by
    rw [List.filterMap_eq_nil_iff]
    intro q hq
    have hq2 := List.mem_filter.mp hq
    exact h q hq2.1 (by simpa using hq2.2)
  rw [hnil]
  rfl

theorem fallback_take_zero (st : SearchState) (pid : Int) :
    fallback st pid 0 = (st, .ok []) := by
  have hrows : fallback_rows st pid 0 = [] := by
    unfold fallback_rows
    cases query_embedding st.papers pid <;> simp
  simp [fallback, fallback_results, hrows]

/-- C7 (amended): a query for a paper with no embedding and no cached
neighbor list returns the empty list without raising and without touching
the store — but it is returned as a plain empty success, carrying no
distinct "no embedding" marker (the counterexample shows it is the very
value an ordinary empty-but-successful match returns). -/
theorem resolve_no_embedding_returns_plain_empty (st : SearchState)
    (paper_id : Int) (k : Nat) (p : SPaper)
    (hfind : st.papers.find? (fun q => q.id == paper_id) = some p)
    (hcache : p.similar_embddings_ids = none)
    (hemb : ∀ q ∈ st.papers, q.id = paper_id → q.embedding = none) :
    get_related_papers st paper_id k = (st, .ok []) := by
  have hq : query_embedding st.papers paper_id = none := query_embedding_none hemb
  have hrows : fallback_rows st paper_id k = [] := by simp [fallback_rows, hq]
  have hres : fallback_results st paper_id k = [] := by simp [fallback_results, hrows]
  simp [get_related_papers, hfind, hcache, fallback, hres]

/-- Witness for the C7 amended theorem at a one-paper store. -/
theorem resolve_no_embedding_returns_plain_empty_witness :
    get_related_papers stNoEmbedding 1 5 = (stNoEmbedding, .ok []) := by
  refine resolve_no_embedding_returns_plain_empty stNoEmbedding 1 5
    ⟨1, none, none, none, none⟩ rfl rfl ?_
  intro q hq h
  simp only [stNoEmbedding, List.mem_singleton] at hq
  subst hq
  rfl

/-- C6 (amended): after a fallback computation with a non-empty result the
resolver does write the computed neighbor-id sequence back into
`similar_embddings_ids` — but the write is not best-effort: when the cache
UPDATE fails the failure propagates and the resolve operation fails
instead of returning the already-computed result. -/
theorem resolve_fallback_writeback_propagates_failure (st : SearchState)
    (paper_id : Int) (k : Nat) (p : SPaper)
    (hfind : st.papers.find? (fun q => q.id == paper_id) = some p)
    (hcache : p.similar_embddings_ids = none)
    (hres : fallback_results st paper_id k ≠ []) :
    (st.cacheWriteFails = false →
        get_related_papers st paper_id k
          = (write_cache st paper_id ((fallback_results st paper_id k).map fun r => r.id),
             .ok (fallback_results st paper_id k)))
      ∧ (st.cacheWriteFails = true →
          get_related_papers st paper_id k = (st, .error .storeError)) := by
  have hmain : get_related_papers st paper_id k = fallback st paper_id k := by
    simp [get_related_papers, hfind, hcache]
  have hne : (fallback_results st paper_id k).isEmpty = false := by
    simpa [List.isEmpty_iff] using hres
  constructor
  · intro hw
    rw [hmain]
    simp [fallback, hne, hw]
  · intro hw
    rw [hmain]
    simp [fallback, hne, hw]

/-- The `stWriteFail` store with a healthy cache write path. -/
def stWriteOk : SearchState :=
  ⟨[⟨1, none, none, some [1], none⟩, ⟨2, none, none, some [1], none⟩], false⟩

/-- Witness for the C6 amended theorem at a two-paper store. -/
theorem resolve_fallback_writeback_propagates_failure_witness :
    (stWriteOk.cacheWriteFails = false →
        get_related_papers stWriteOk 1 10
          = (write_cache stWriteOk 1 ((fallback_results stWriteOk 1 10).map fun r => r.id),
             .ok (fallback_results stWriteOk 1 10)))
      ∧ (stWriteOk.cacheWriteFails = true →
          get_related_papers stWriteOk 1 10 = (stWriteOk, .error .storeError)) := by
  refine resolve_fallback_writeback_propagates_failure stWriteOk 1 10
    ⟨1, none, none, some [1], none⟩ rfl rfl ?_
  intro h
  have hlen : (fallback_results stWriteOk 1 10).length = 1 := rfl
  rw [h] at hlen
  simp at hlen

/-! Lemmas about the cache-hit path of the resolver. -/

theorem list_getLast?_map {α β : Type} (f : α → β) :
    ∀ l : List α, (l.map f).getLast? = l.getLast?.map f
  | [] => rfl
  | [a] => rfl
  | a :: b :: t => by
      rw [List.map_cons, List.map_cons, List.getLast?_cons_cons,
        List.getLast?_cons_cons, ← List.map_cons]
      exact list_getLast?_map f (b :: t)

theorem find?_id_mapEmbedding (f : SPaper → Option (List ℚ))
    (papers : List SPaper) (pid : Int) :
    ((papers.map fun p => { p with embedding := f p }).find? fun q => q.id == pid)
      = (papers.find? fun q => q.id == pid).map fun p => { p with embedding := f p } := by
  induction papers with
  | nil => rfl
  | cons p ps ih =>
      by_cases h : (p.id == pid) = true
      · simp [List.find?_cons, h]
      · simp [List.find?_cons, h, ih]

theorem lookupLast_mapEmbedding (f : SPaper → Option (List ℚ))
    (papers : List SPaper) (cid : Int) :
    lookupLast (papers.map fun p => { p with embedding := f p }) cid
      = (lookupLast papers cid).map fun p => { p with embedding := f p } := by
  unfold lookupLast
  rw [List.filter_map, list_getLast?_map]
  rfl

theorem hydrate_mapEmbedding (f : SPaper → Option (List ℚ))
    (papers : List SPaper) (ids : List Int) :
    hydrate (papers.map fun p => { p with embedding := f p }) ids
      = hydrate papers ids := by
  unfold hydrate
  congr 1
  funext cid
  rw [lookupLast_mapEmbedding]
  cases lookupLast papers cid <;> rfl

theorem hydrate_map_id (papers : List SPaper) :
    ∀ l : List Int, (hydrate papers l).map (fun r => r.id)
      = l.filter fun cid => papers.any fun q => q.id == cid := by
  intro l
  induction l with
  | nil => rfl
  | cons c t ih =>
      simp only [hydrate] at ih ⊢
      rw [List.filterMap_cons]
      cases hl : lookupLast papers c with
      | none =>
          have hany : (papers.any fun q => q.id == c) = false := by
            unfold lookupLast at hl
            rcases hfil : papers.filter fun p => p.id == c with _ | ⟨x, xs⟩
            · simp only [List.any_eq_false]
              intro q hq
              have := List.filter_eq_nil_iff.mp hfil q hq
              simpa using this
            · rw [hfil, List.getLast?_eq_none_iff] at hl
              exact absurd hl (List.cons_ne_nil x xs)
          rw [List.filter_cons, hany]
          simpa using ih
      | some x =>
          have hany : (papers.any fun q => q.id == c) = true := by
            unfold lookupLast at hl
            have hmem : x ∈ papers.filter fun p => p.id == c := by
              obtain ⟨hne, hx⟩ := @List.mem_getLast?_eq_getLast _
                (papers.filter fun p => p.id == c) x (by rw [hl]; rfl)
              rw [hx]
              exact List.getLast_mem hne
            have hq := List.mem_filter.mp hmem
            simp only [List.any_eq_true]
            exact ⟨x, hq.1, hq.2⟩
          rw [List.filter_cons, hany]
          simp [ih]

/-- C2: when the queried paper has a non-empty cached neighbor list, the
resolver returns the first k cached ids hydrated in exactly the cached
order — independent of the current embeddings, hence of any similarity
score, as stated by quantifying over an arbitrary reassignment of every
embedding — and the ids of the result are precisely the cached prefix
filtered to the ids that still resolve to a paper, preserving their
relative order. -/
theorem resolve_cache_hit_preserves_cached_order (st : SearchState)
    (paper_id : Int) (k : Nat) (p : SPaper) (ids : List Int)
    (hfind : st.papers.find? (fun q => q.id == paper_id) = some p)
    (hcache : p.similar_embddings_ids = some ids) (hne : ids ≠ []) :
    (∀ f : SPaper → Option (List ℚ),
        get_related_papers (mapEmbedding f st) paper_id k
          = (mapEmbedding f st, .ok (hydrate st.papers (ids.take k))))
      ∧ (hydrate st.papers (ids.take k)).map (fun r => r.id)
          = (ids.take k).filter fun cid => st.papers.any fun q => q.id == cid := by
  constructor
  · intro f
    have hfind2 : (mapEmbedding f st).papers.find? (fun q => q.id == paper_id)
        = some { p with embedding := f p } := by
      simp only [mapEmbedding]
      rw [find?_id_mapEmbedding, hfind]
      rfl
    cases k with
    | zero =>
        simp [get_related_papers, hfind2, hcache, fallback_take_zero, hydrate]
    | succ k =>
        have htake : (ids.take (k + 1)).isEmpty = false := by
          cases ids with
          | nil => exact absurd rfl hne
          | cons a t => rfl
        simp only [get_related_papers, hfind2, hcache, htake, Bool.false_eq_true,
          if_false]
        rw [show (mapEmbedding f st).papers
            = st.papers.map (fun q => { q with embedding := f q }) from rfl,
          hydrate_mapEmbedding]
  · exact hydrate_map_id st.papers (ids.take k)

/-- A search store for the C2 witness: paper 7 caches neighbors [5, 2, 9],
papers 5 and 2 exist, id 9 no longer resolves. -/
def stCacheHit : SearchState :=
  ⟨[⟨7, none, some "q", some [1], some [5, 2, 9]⟩,
    ⟨5, some "a5", some "t5", none, none⟩,
    ⟨2, some "a2", some "t2", none, none⟩], false⟩

/-- Witness for the C2 theorem: `resolve(7, 2)` on `stCacheHit` serves
`[5, 2]` from the cache in that order for every embedding assignment. -/
theorem resolve_cache_hit_preserves_cached_order_witness :
    (∀ f : SPaper → Option (List ℚ),
        get_related_papers (mapEmbedding f stCacheHit) 7 2
          = (mapEmbedding f stCacheHit, .ok (hydrate stCacheHit.papers ([5, 2, 9].take 2))))
      ∧ (hydrate stCacheHit.papers ([5, 2, 9].take 2)).map (fun r => r.id)
          = ([5, 2, 9].take 2).filter fun cid => stCacheHit.papers.any fun q => q.id == cid :=
  resolve_cache_hit_preserves_cached_order stCacheHit 7 2
    ⟨7, none, some "q", some [1], some [5, 2, 9]⟩ [5, 2, 9] rfl rfl (by decide)

end MindMap
